import Mathlib

set_option linter.unusedVariables false

/-!
Shallow embedding of the backgammon bot decision engine from
`bot_training.py` (which inlines `main.py`, `bot_controller.py` and
`neural_network.py`).  External collaborators that `bot_controller.py`
imports but whose source is not part of the repository
(`MoveGenerator.get_legal_moves`, `PositionEvaluator.evaluate`,
`BackgammonEngine.is_valid_state`, the file system read by `torch.load`,
the process-global `random` module and the wall clock read by
`time.time()`) are modelled as explicit parameters: the realized draws of
the `random` module during one call are an explicit tape, and the two
`time.time()` readings of one call are explicit rational arguments.
Python floats are modelled as exact rationals.
-/

/-- `BoardPosition` (pydantic model): 24 points plus bar and off counts,
signed counts from white's perspective. -/
structure BoardPosition where
  points : List Int
  bar_white : Int
  bar_black : Int
  off_white : Int
  off_black : Int
deriving DecidableEq

/-- `GameState` (pydantic model): board, dice and turn/cube/match metadata. -/
structure GameState where
  board : BoardPosition
  dice : List Int
  player_to_move : String
  cube_value : Int
  cube_owner : Option String
  match_score_white : Int
  match_score_black : Int
  match_length : Int
deriving DecidableEq

/-- `Move` (pydantic model): one checker step. -/
structure Move where
  from_point : Int
  to_point : Int
deriving DecidableEq

/-- `BotResponse` (pydantic model): chosen sequence, reported evaluation,
elapsed thinking time and the (never set) cube action. -/
structure BotResponse where
  moves : List Move
  evaluation : ℚ
  thinking_time_ms : Int
  cube_action : Option String
deriving DecidableEq

/-- `DifficultyLevel` (enum in `main.py`); FastAPI only ever passes one of
these three values to `BotController.get_move`. -/
inductive DifficultyLevel where
  | easy
  | medium
  | hard
deriving DecidableEq

/-- One entry of `BotController.difficulty_params`. -/
structure DiffParams where
  search_depth : Nat
  noise_factor : ℚ
  mistake_probability : ℚ
deriving DecidableEq

/-- `BotController.difficulty_params` from `__init__`. -/
def difficulty_params : DifficultyLevel → DiffParams
  | .easy => { search_depth := 1, noise_factor := 3/10, mistake_probability := 15/100 }
  | .medium => { search_depth := 2, noise_factor := 1/10, mistake_probability := 5/100 }
  | .hard => { search_depth := 3, noise_factor := 0, mistake_probability := 0 }

/-- Realized draws taken from the process-global `random` module during one
`get_move` call: `noise i` is the value returned by
`random.gauss(0, noise_factor)` for the i-th candidate, `mistake` the value
returned by `random.random()` (always in `[0,1)`), and `choice` the index
drawn by `random.choice` (reduced modulo the candidate count). -/
structure RandTape where
  noise : Nat → ℚ
  mistake : ℚ
  choice : Nat
  mistake_nonneg : 0 ≤ mistake
  mistake_lt_one : mistake < 1

/-- Python `int()` applied to a float: truncation toward zero. -/
def pyIntTrunc (q : ℚ) : Int := if q < 0 then -(Int.floor (-q)) else Int.floor q

/-- `BotController._apply_moves`: the placeholder returns its state argument
unchanged ("This is a placeholder - you'd implement the actual move logic"). -/
def _apply_moves (game_state : GameState) (moves : List Move) : GameState :=
  game_state

/-- `BotController._evaluate_with_search`: if `depth == 0` return the static
evaluation; otherwise ("This is a simplified version") also return the
static evaluation.  `evaluate` stands for `PositionEvaluator.evaluate`
(whose source is external to the repository) and `model` for the
`BackgammonNet` passed alongside the state. -/
def _evaluate_with_search {Model : Type} (evaluate : GameState → Model → ℚ)
    (game_state : GameState) (model : Model) (depth : Nat) : ℚ :=
  if depth = 0 then evaluate game_state model
  else evaluate game_state model

/-- Score assigned to the i-th candidate inside the `for moves in
legal_moves` loop of `get_move`: the search score of the position obtained
by `_apply_moves`, plus the Gaussian draw when `noise_factor > 0`. -/
def scoreOf {Model : Type} (evaluate : GameState → Model → ℚ) (model : Model)
    (params : DiffParams) (game_state : GameState) (tape : RandTape)
    (i : Nat) (mv : List Move) : ℚ :=
  let evaluation :=
    _evaluate_with_search evaluate (_apply_moves game_state mv) model params.search_depth
  if 0 < params.noise_factor then evaluation + tape.noise i else evaluation

/-- The candidate list paired with the perturbed scores computed by the
loop, starting the noise-draw index at `k`. -/
def scoreList {Model : Type} (evaluate : GameState → Model → ℚ) (model : Model)
    (params : DiffParams) (game_state : GameState) (tape : RandTape) :
    Nat → List (List Move) → List (List Move × ℚ)
  | _, [] => []
  | k, mv :: rest =>
      (mv, scoreOf evaluate model params game_state tape k mv) ::
        scoreList evaluate model params game_state tape (k + 1) rest

/-- The `best_moves` / `best_evaluation` accumulation of the loop: the
accumulator starts at `(None, float('-inf'))`, so the first candidate always
replaces it, and a later candidate replaces it only when its score is
strictly greater (`if evaluation > best_evaluation`). -/
def selectBest (acc : Option (List Move × ℚ)) :
    List (List Move × ℚ) → Option (List Move × ℚ)
  | [] => acc
  | x :: rest =>
      match acc with
      | none => selectBest (some x) rest
      | some b =>
          if b.2 < x.2 then selectBest (some x) rest else selectBest (some b) rest

/-- The selection phase of `get_move` on a non-empty candidate list: the
maximizing loop, then the mistake override
(`if random.random() < params["mistake_probability"]`), which replaces the
selection by `random.choice(legal_moves)` and recomputes the evaluation with
`self.evaluator.evaluate` (no noise). -/
def selection {Model : Type} (evaluate : GameState → Model → ℚ) (model : Model)
    (params : DiffParams) (game_state : GameState) (tape : RandTape)
    (legal_moves : List (List Move)) : List Move × ℚ :=
  let best :=
    (selectBest none
      (scoreList evaluate model params game_state tape 0 legal_moves)).getD ([], 0)
  if tape.mistake < params.mistake_probability then
    let best_moves := legal_moves.getD (tape.choice % legal_moves.length) []
    (best_moves, evaluate (_apply_moves game_state best_moves) model)
  else best

/-- `BotController.get_move`.  `get_legal_moves` stands for
`MoveGenerator.get_legal_moves` (external to the repository), `models` for
the per-difficulty `BackgammonNet` dictionary, `start_time` and `end_time`
for the two `time.time()` readings of the call. -/
def get_move {Model : Type} (get_legal_moves : GameState → List (List Move))
    (evaluate : GameState → Model → ℚ) (models : DifficultyLevel → Model)
    (game_state : GameState) (difficulty : DifficultyLevel)
    (tape : RandTape) (start_time end_time : ℚ) : BotResponse :=
  match get_legal_moves game_state with
  | [] =>
      { moves := [], evaluation := 0,
        thinking_time_ms := pyIntTrunc ((end_time - start_time) * 1000),
        cube_action := none }
  | m :: rest =>
      let chosen :=
        selection evaluate (models difficulty) (difficulty_params difficulty)
          game_state tape (m :: rest)
      { moves := chosen.1, evaluation := chosen.2,
        thinking_time_ms := pyIntTrunc ((end_time - start_time) * 1000),
        cube_action := none }

/-- Checkers of white on the board plus bar plus off. -/
def whiteCheckers (b : BoardPosition) : Int :=
  (b.points.map (fun p => max p 0)).sum + b.bar_white + b.off_white

/-- Checkers of black on the board plus bar plus off. -/
def blackCheckers (b : BoardPosition) : Int :=
  (b.points.map (fun p => max (-p) 0)).sum + b.bar_black + b.off_black

/-- Modelled from the spec: `BackgammonEngine.is_valid_state` — the module
`backgammon_engine` is imported by `main.py` but its source is not part of
the repository.  Spec §4.5/§7: the controller validates that `dice` contains
two values in `[1,6]` and that the state satisfies the BoardState
invariants (24 points, 15 checkers per side counting points, bar and off,
non-negative bar/off counts, positive cube value; a mixed-sign point cannot
arise in the signed-count representation). -/
def is_valid_state (gs : GameState) : Bool :=
  decide (gs.board.points.length = 24) &&
  decide (gs.dice.length = 2) &&
  gs.dice.all (fun d => decide (1 ≤ d) && decide (d ≤ 6)) &&
  decide (0 ≤ gs.board.bar_white) && decide (0 ≤ gs.board.bar_black) &&
  decide (0 ≤ gs.board.off_white) && decide (0 ≤ gs.board.off_black) &&
  decide (whiteCheckers gs.board = 15) && decide (blackCheckers gs.board = 15) &&
  decide (1 ≤ gs.cube_value)

/-- The error raised by the `get_bot_move` endpoint (FastAPI
`HTTPException`); `str` of such an exception is
`f"{status_code}: {detail}"` (written without braces here). -/
inductive ApiError where
  | httpException (status_code : Nat) (detail : String)
deriving DecidableEq

/-- Python `str(e)` for an `HTTPException`. -/
def ApiError.str : ApiError → String
  | .httpException s d => toString s ++ ": " ++ d

/-- The `/api/get-move` handler `get_bot_move`: validate the state, raising
`HTTPException(400, "Invalid game state")` when invalid, otherwise run
`bot_controller.get_move`; the surrounding `except Exception` clause
converts any exception raised inside the `try` block — including that 400 —
into `HTTPException(500, "Error generating move: " + str(e))`. -/
def get_bot_move {Model : Type} (get_legal_moves : GameState → List (List Move))
    (evaluate : GameState → Model → ℚ) (models : DifficultyLevel → Model)
    (game_state : GameState) (difficulty : DifficultyLevel)
    (tape : RandTape) (start_time end_time : ℚ) : Except ApiError BotResponse :=
  let body : Except ApiError BotResponse :=
    if is_valid_state game_state then
      Except.ok
        (get_move get_legal_moves evaluate models game_state difficulty tape
          start_time end_time)
    else
      Except.error (ApiError.httpException 400 "Invalid game state")
  match body with
  | Except.error e =>
      Except.error (ApiError.httpException 500 ("Error generating move: " ++ e.str))
  | Except.ok r => Except.ok r

/-- `BackgammonNet` (`neural_network.py`), reduced to the state the claims
are about: the configured path, the `loaded` flag and the weights
(`state_dict = none` stands for the random initial weights of the freshly
constructed network, `some sd` for weights read from disk).  The network
layers themselves and `torch` evaluation mode are not modelled. -/
structure BackgammonNet (SD : Type) where
  model_path : Option String
  loaded : Bool
  state_dict : Option SD
deriving DecidableEq

/-- `BackgammonNet.load_model`: `torch.load` is modelled by the file-system
oracle `fs` (`none` = `FileNotFoundError`, the only exception the `try`
block catches; on it the method prints a message, keeps the random initial
weights and still sets `self.loaded = True`).  On success it stores the
weights and sets `self.loaded = True`.  Python truthiness of
`self.model_path` makes the empty string skip loading. -/
def load_model {SD : Type} (fs : String → Option SD) (net : BackgammonNet SD) :
    BackgammonNet SD :=
  match net.model_path with
  | none => net
  | some p =>
      if p = "" then net
      else
        match fs p with
        | some sd => { net with state_dict := some sd, loaded := true }
        | none => { net with loaded := true }

/-- `BackgammonNet.__init__`: fields are initialized (`loaded = False`,
random weights), then `if model_path: self.load_model()`. -/
def BackgammonNet.init {SD : Type} (fs : String → Option SD)
    (model_path : Option String) : BackgammonNet SD :=
  let net : BackgammonNet SD := ⟨model_path, false, none⟩
  match model_path with
  | some p => if p = "" then net else load_model fs net
  | none => net

/-- The `self.models` dictionary built in `BotController.__init__`. -/
def controller_models {SD : Type} (fs : String → Option SD) :
    DifficultyLevel → BackgammonNet SD
  | .easy => BackgammonNet.init fs (some "models/easy_model.pth")
  | .medium => BackgammonNet.init fs (some "models/medium_model.pth")
  | .hard => BackgammonNet.init fs (some "models/hard_model.pth")

/-- `BotController.is_ready`: all models report `is_loaded()`. -/
def is_ready {SD : Type} (fs : String → Option SD) : Bool :=
  (controller_models fs DifficultyLevel.easy).loaded &&
  (controller_models fs DifficultyLevel.medium).loaded &&
  (controller_models fs DifficultyLevel.hard).loaded

/-- The 21 distinct dice rolls (unordered pairs). -/
def allRolls : List (Int × Int) :=
  [(1,1),(1,2),(1,3),(1,4),(1,5),(1,6),
   (2,2),(2,3),(2,4),(2,5),(2,6),
   (3,3),(3,4),(3,5),(3,6),
   (4,4),(4,5),(4,6),
   (5,5),(5,6),
   (6,6)]

/-- Minimum of a list of rationals with a default for the empty list. -/
def minOr (dflt : ℚ) : List ℚ → ℚ
  | [] => dflt
  | x :: xs => xs.foldl min x

/-- Comparison definition for the refinement claim about deep search,
following the spec's words (§4.3 step 2): for `depth > 1`, average over all
21 possible dice rolls weighted uniformly the minimum over the opponent's
replies of the value one ply deeper (depth decremented each half-turn ply);
for `depth ≤ 1` the static evaluation.  `replies s r` enumerates the
positions the opponent can reach from `s` with roll `r` (when the opponent
has no reply the position's own evaluation is used).  The source never
implements this; its comment says "For deeper search, you'd implement
proper minimax with opponent responses". -/
def expectiminimaxSpec (replies : GameState → Int × Int → List GameState)
    (evalFn : GameState → ℚ) : Nat → GameState → ℚ
  | 0 => evalFn
  | 1 => evalFn
  | d + 2 => fun s =>
      (allRolls.map (fun r =>
        minOr (evalFn s)
          ((replies s r).map (expectiminimaxSpec replies evalFn (d + 1))))).sum / 21

/-! ### Concrete instances used by counterexamples and witnesses -/

/-- The example board from the source's client-usage section: the standard
starting position (15 checkers per side). -/
def examplePoints : List Int :=
  [0, 2, 0, 0, 0, -5, 0, -3, 0, 0, 0, 5, -5, 0, 0, 0, 3, 0, 5, 0, 0, 0, 0, -2]

/-- The example request from the source's client-usage section. -/
def gsExample : GameState :=
  { board := { points := examplePoints, bar_white := 0, bar_black := 0,
               off_white := 0, off_black := 0 },
    dice := [3, 4], player_to_move := "white", cube_value := 1,
    cube_owner := none, match_score_white := 0, match_score_black := 0,
    match_length := 7 }

/-- `gsExample` with a die outside `[1,6]`. -/
def gsBadDice : GameState := { gsExample with dice := [7, 3] }

/-- `gsExample` with a checker-count violation (16 white checkers). -/
def gsBadBoard : GameState :=
  { gsExample with
    board := { points := examplePoints, bar_white := 0, bar_black := 0,
               off_white := 1, off_black := 0 } }

/-- A move generator producing one candidate. -/
def glmOne : GameState → List (List Move) := fun _ => [[⟨6, 3⟩]]

/-- A move generator producing two candidates. -/
def glmTwo : GameState → List (List Move) := fun _ => [[⟨24, 21⟩], [⟨24, 20⟩]]

/-- A move generator producing no candidate. -/
def glmEmpty : GameState → List (List Move) := fun _ => []

/-- A constant evaluator. -/
def evalZero : GameState → Unit → ℚ := fun _ _ => 0

/-- A trivial model for every difficulty. -/
def modelsUnit : DifficultyLevel → Unit := fun _ => ()

/-- A tape with zero Gaussian draws and mistake draw 1/2. -/
def tapeHalf : RandTape := ⟨fun _ => 0, 1/2, 0, by norm_num, by norm_num⟩

/-- A tape whose Gaussian draws are all 1 and whose mistake draw is 1/2. -/
def tapeNoise : RandTape := ⟨fun _ => 1, 1/2, 0, by norm_num, by norm_num⟩

/-- A tape whose mistake draw 1/10 fires on the easy profile and whose
choice index is 1. -/
def tapeMistake : RandTape := ⟨fun _ => 0, 1/10, 1, by norm_num, by norm_num⟩

/-- An evaluator reading the `match_score_white` counter of the state. -/
def evalCount : GameState → ℚ := fun s => (s.match_score_white : ℚ)

/-- A state transformer incrementing the counter read by `evalCount`. -/
def bumpState (s : GameState) : GameState :=
  { s with match_score_white := s.match_score_white + 1 }

/-- An opponent-reply enumeration with a single reply for every roll. -/
def repliesBump : GameState → Int × Int → List GameState := fun s _ => [bumpState s]

/-! ### Claim C1 -/

/-- Claim C1, counterexample: at search depth 2 (the medium profile's
depth) the score `_evaluate_with_search` computes for a candidate position
is exactly the static evaluation of that position and differs from the
expectiminimax value over the 21 opponent rolls prescribed by the spec,
refuting the claim at this concrete instance. -/
theorem search_depth2_not_expectiminimax :
    _evaluate_with_search (fun s (_ : Unit) => evalCount s) gsExample () 2 =
      evalCount gsExample ∧
    _evaluate_with_search (fun s (_ : Unit) => evalCount s) gsExample () 2 ≠
      expectiminimaxSpec repliesBump evalCount 2 gsExample := by
  have h1 : expectiminimaxSpec repliesBump evalCount 2 gsExample = 1 := by
    show expectiminimaxSpec repliesBump evalCount (0 + 2) gsExample = 1
    simp [expectiminimaxSpec, allRolls, repliesBump, minOr, evalCount, bumpState,
      gsExample]
    norm_num
  have h2 : _evaluate_with_search (fun s (_ : Unit) => evalCount s) gsExample () 2 =
      evalCount gsExample := by
    simp [_evaluate_with_search]
  have h3 : evalCount gsExample = 0 := by
    simp [evalCount, gsExample]
  exact ⟨h2, by rw [h1, h2, h3]; norm_num⟩

/-- Claim C1, amended: for every depth — in particular for the medium and
hard profiles' depths 2 and 3 — `_evaluate_with_search` returns the static
evaluation of the candidate's resulting position; the depth parameter is
ignored and no opponent reply is ever simulated. -/
theorem evaluate_with_search_is_static {Model : Type}
    (evaluate : GameState → Model → ℚ) (game_state : GameState)
    (model : Model) (depth : Nat) :
    _evaluate_with_search evaluate game_state model depth =
      evaluate game_state model := by
  unfold _evaluate_with_search
  split <;> rfl

/-! ### Claim C9 -/

/-- Claim C9: `_apply_moves` returns its state argument unchanged, so every
candidate sequence is scored on the same, pre-move position. -/
theorem apply_moves_identity {Model : Type} (evaluate : GameState → Model → ℚ)
    (model : Model) (depth : Nat) (game_state : GameState)
    (moves moves2 : List Move) :
    _apply_moves game_state moves = game_state ∧
    _evaluate_with_search evaluate (_apply_moves game_state moves) model depth =
      _evaluate_with_search evaluate (_apply_moves game_state moves2) model depth :=
  ⟨rfl, rfl⟩

/-! ### Claim C10 -/

/-- Claim C10: on every input — empty or non-empty candidate set, mistake
branch taken or not — the response of `get_move` has `cube_action = none`;
no code path sets a doubling-cube action. -/
theorem cube_action_always_none {Model : Type}
    (get_legal_moves : GameState → List (List Move))
    (evaluate : GameState → Model → ℚ) (models : DifficultyLevel → Model)
    (game_state : GameState) (difficulty : DifficultyLevel)
    (tape : RandTape) (start_time end_time : ℚ) :
    (get_move get_legal_moves evaluate models game_state difficulty tape
      start_time end_time).cube_action = none := by
  unfold get_move
  cases get_legal_moves game_state <;> rfl

/-! ### Claim C4 -/

/-- Claim C4, counterexample: with a file system on which every path is
missing (`torch.load` raises `FileNotFoundError`), the controller's easy
model is nevertheless marked loaded while holding no loaded weights, and
`is_ready` reports `true`: a missing model file does result in a
loaded-and-ready evaluator, and no error is raised at construction time. -/
theorem missing_model_file_loads_anyway :
    (controller_models (fun _ : String => (none : Option Unit))
      DifficultyLevel.easy).loaded = true ∧
    (controller_models (fun _ : String => (none : Option Unit))
      DifficultyLevel.easy).state_dict = none ∧
    is_ready (fun _ : String => (none : Option Unit)) = true := by
  decide

/-- Claim C4, amended: when the configured model file is missing,
`load_model` catches the `FileNotFoundError`, keeps the random initial
weights, and still marks the network as loaded; construction completes
normally instead of raising an `EvaluatorUnavailableError` (no such error
exists in the code), so the engine proceeds with the substituted
randomly-initialized model. -/
theorem load_model_missing_file_marks_loaded {SD : Type}
    (fs : String → Option SD) (p : String)
    (hp : p ≠ "") (hmiss : fs p = none) :
    BackgammonNet.init fs (some p) = ⟨some p, true, none⟩ := by
  simp [BackgammonNet.init, load_model, hp, hmiss]

/-- Witness for the amended C4 theorem at the controller's easy-model path
on the all-missing file system. -/
theorem load_model_missing_file_marks_loaded_witness :
    ("models/easy_model.pth" : String) ≠ "" ∧
    (fun _ : String => (none : Option Unit)) "models/easy_model.pth" = none ∧
    BackgammonNet.init (fun _ : String => (none : Option Unit))
      (some "models/easy_model.pth") = ⟨some "models/easy_model.pth", true, none⟩ :=
  ⟨by decide, rfl,
    load_model_missing_file_marks_loaded (fun _ => none) "models/easy_model.pth"
      (by decide) rfl⟩

/-! ### Characterization of the maximizing loop -/

lemma selectBest_cons_some (b x : List Move × ℚ) (rest : List (List Move × ℚ)) :
    selectBest (some b) (x :: rest) =
      if b.2 < x.2 then selectBest (some x) rest else selectBest (some b) rest := rfl

lemma selectBest_some_spec (l : List (List Move × ℚ)) :
    ∀ b : List Move × ℚ,
      ∃ i, i < l.length + 1 ∧
        selectBest (some b) l = some ((b :: l).getD i ([], 0)) ∧
        (∀ j, j < l.length + 1 →
          ((b :: l).getD j ([], 0)).2 ≤ ((b :: l).getD i ([], 0)).2) ∧
        (∀ j, j < i → ((b :: l).getD j ([], 0)).2 < ((b :: l).getD i ([], 0)).2) := by
  induction l with
  | nil =>
      intro b
      refine ⟨0, by omega, rfl, ?_, ?_⟩
      · intro j hj
        simp only [List.length_nil] at hj
        have hj0 : j = 0 := by omega
        subst hj0
        exact le_refl _
      · intro j hj
        exact absurd hj (Nat.not_lt_zero j)
  | cons x rest ih =>
      intro b
      rw [selectBest_cons_some]
      by_cases hbx : b.2 < x.2
      · rw [if_pos hbx]
        obtain ⟨i, hi, heq, hmax, hfirst⟩ := ih x
        refine ⟨i + 1, ?_, ?_, ?_, ?_⟩
        · simp only [List.length_cons]
          omega
        · rw [heq]
          simp [List.getD_cons_succ]
        · intro j hj
          simp only [List.getD_cons_succ]
          cases j with
          | zero =>
              have hx0 := hmax 0 (by omega)
              simp only [List.getD_cons_zero] at hx0
              simp only [List.getD_cons_zero]
              exact le_of_lt (lt_of_lt_of_le hbx hx0)
          | succ j2 =>
              have h2 := hmax j2 (by simp only [List.length_cons] at hj ⊢; omega)
              simpa [List.getD_cons_succ] using h2
        · intro j hj
          simp only [List.getD_cons_succ]
          cases j with
          | zero =>
              have hx0 := hmax 0 (by omega)
              simp only [List.getD_cons_zero] at hx0
              simp only [List.getD_cons_zero]
              exact lt_of_lt_of_le hbx hx0
          | succ j2 =>
              have h2 := hfirst j2 (by omega)
              simpa [List.getD_cons_succ] using h2
      · rw [if_neg hbx]
        have hxb : x.2 ≤ b.2 := le_of_not_lt hbx
        obtain ⟨i, hi, heq, hmax, hfirst⟩ := ih b
        cases i with
        | zero =>
            refine ⟨0, by omega, ?_, ?_, ?_⟩
            · rw [heq]
              simp [List.getD_cons_zero]
            · intro j hj
              simp only [List.getD_cons_zero]
              cases j with
              | zero => simp only [List.getD_cons_zero]; exact le_refl _
              | succ j2 =>
                  cases j2 with
                  | zero =>
                      simp only [List.getD_cons_succ, List.getD_cons_zero]
                      exact hxb
                  | succ j3 =>
                      have h2 := hmax (j3 + 1)
                        (by simp only [List.length_cons] at hj ⊢; omega)
                      simpa [List.getD_cons_succ, List.getD_cons_zero] using h2
            · intro j hj
              exact absurd hj (Nat.not_lt_zero j)
        | succ i2 =>
            refine ⟨i2 + 2, ?_, ?_, ?_, ?_⟩
            · simp only [List.length_cons]
              omega
            · rw [heq]
              simp [List.getD_cons_succ]
            · intro j hj
              simp only [List.getD_cons_succ]
              cases j with
              | zero =>
                  have h0 := hmax 0 (by omega)
                  simpa [List.getD_cons_zero, List.getD_cons_succ] using h0
              | succ j2 =>
                  cases j2 with
                  | zero =>
                      have h0 := hmax 0 (by omega)
                      simp only [List.getD_cons_zero] at h0
                      simp only [List.getD_cons_succ] at h0 ⊢
                      simp only [List.getD_cons_zero]
                      exact le_trans hxb h0
                  | succ j3 =>
                      have h2 := hmax (j3 + 1)
                        (by simp only [List.length_cons] at hj ⊢; omega)
                      simpa [List.getD_cons_succ] using h2
            · intro j hj
              simp only [List.getD_cons_succ]
              cases j with
              | zero =>
                  have h0 := hfirst 0 (by omega)
                  simpa [List.getD_cons_zero, List.getD_cons_succ] using h0
              | succ j2 =>
                  cases j2 with
                  | zero =>
                      have h0 := hfirst 0 (by omega)
                      simp only [List.getD_cons_zero] at h0
                      simp only [List.getD_cons_succ] at h0 ⊢
                      simp only [List.getD_cons_zero]
                      exact lt_of_le_of_lt hxb h0
                  | succ j3 =>
                      have h2 := hfirst (j3 + 1) (by omega)
                      simpa [List.getD_cons_succ] using h2

lemma scoreList_length {Model : Type} (evaluate : GameState → Model → ℚ)
    (model : Model) (params : DiffParams) (game_state : GameState)
    (tape : RandTape) :
    ∀ (l : List (List Move)) (k : Nat),
      (scoreList evaluate model params game_state tape k l).length = l.length := by
  intro l
  induction l with
  | nil => intro k; rfl
  | cons mv rest ih =>
      intro k
      simp [scoreList, ih]

lemma scoreList_getD {Model : Type} (evaluate : GameState → Model → ℚ)
    (model : Model) (params : DiffParams) (game_state : GameState)
    (tape : RandTape) :
    ∀ (l : List (List Move)) (k j : Nat), j < l.length →
      (scoreList evaluate model params game_state tape k l).getD j ([], 0) =
        (l.getD j [],
          scoreOf evaluate model params game_state tape (k + j) (l.getD j [])) := by
  intro l
  induction l with
  | nil =>
      intro k j hj
      simp at hj
  | cons mv rest ih =>
      intro k j hj
      cases j with
      | zero => simp [scoreList]
      | succ j2 =>
          have hj2 : j2 < rest.length := by
            simp only [List.length_cons] at hj
            omega
          have h2 := ih (k + 1) j2 hj2
          have hk : k + 1 + j2 = k + (j2 + 1) := by omega
          rw [hk] at h2
          simpa [scoreList, List.getD_cons_succ] using h2

lemma selection_no_mistake_spec {Model : Type} (evaluate : GameState → Model → ℚ)
    (model : Model) (params : DiffParams) (game_state : GameState)
    (tape : RandTape) (m : List Move) (rest : List (List Move))
    (hnm : ¬ tape.mistake < params.mistake_probability) :
    ∃ i, i < rest.length + 1 ∧
      selection evaluate model params game_state tape (m :: rest) =
        ((m :: rest).getD i [],
          scoreOf evaluate model params game_state tape i ((m :: rest).getD i [])) ∧
      (∀ j, j < rest.length + 1 →
        scoreOf evaluate model params game_state tape j ((m :: rest).getD j []) ≤
          scoreOf evaluate model params game_state tape i ((m :: rest).getD i [])) ∧
      (∀ j, j < i →
        scoreOf evaluate model params game_state tape j ((m :: rest).getD j []) <
          scoreOf evaluate model params game_state tape i ((m :: rest).getD i [])) := by
  have hGD : ∀ j, j < rest.length + 1 →
      (scoreList evaluate model params game_state tape 0 (m :: rest)).getD j ([], 0) =
        ((m :: rest).getD j [],
          scoreOf evaluate model params game_state tape j ((m :: rest).getD j [])) := by
    intro j hj
    have h := scoreList_getD evaluate model params game_state tape (m :: rest) 0 j
      (by simp only [List.length_cons]; omega)
    simpa using h
  have hsel : selection evaluate model params game_state tape (m :: rest) =
      (selectBest none
        (scoreList evaluate model params game_state tape 0 (m :: rest))).getD ([], 0) := by
    simp [selection, hnm]
  have hstep : selectBest none
      (scoreList evaluate model params game_state tape 0 (m :: rest)) =
      selectBest (some (m, scoreOf evaluate model params game_state tape 0 m))
        (scoreList evaluate model params game_state tape 1 rest) := rfl
  obtain ⟨i, hi, heq, hmax, hfirst⟩ :=
    selectBest_some_spec (scoreList evaluate model params game_state tape 1 rest)
      (m, scoreOf evaluate model params game_state tape 0 m)
  rw [scoreList_length] at hi
  have hcons : (m, scoreOf evaluate model params game_state tape 0 m) ::
      scoreList evaluate model params game_state tape 1 rest =
      scoreList evaluate model params game_state tape 0 (m :: rest) := rfl
  rw [hcons] at heq hmax hfirst
  rw [scoreList_length] at hmax
  refine ⟨i, hi, ?_, ?_, ?_⟩
  · rw [hsel, hstep, heq]
    simp only [Option.getD_some]
    exact hGD i hi
  · intro j hj
    have h := hmax j hj
    rw [hGD j hj, hGD i hi] at h
    exact h
  · intro j hj
    have h := hfirst j hj
    rw [hGD j (by omega), hGD i hi] at h
    exact h

/-! ### Claim C8 -/

/-- Claim C8: with `noise_factor = 0` and `mistake_probability = 0` (the
hard profile) and a non-empty candidate set, `get_move` returns the
first-enumerated candidate whose base evaluation is maximal (the strict
maximum when one exists, the earliest among equally-scored candidates
otherwise) and reports that base evaluation; the conclusion holds for every
random tape and does not mention it, so no randomness influences the
selection (no noise is added, and the mistake draw, lying in `[0,1)`, can
never be below 0). -/
theorem hard_profile_selects_first_strict_max {Model : Type}
    (get_legal_moves : GameState → List (List Move))
    (evaluate : GameState → Model → ℚ) (models : DifficultyLevel → Model)
    (game_state : GameState) (difficulty : DifficultyLevel)
    (tape : RandTape) (start_time end_time : ℚ)
    (hne : get_legal_moves game_state ≠ [])
    (hnf : (difficulty_params difficulty).noise_factor = 0)
    (hmp : (difficulty_params difficulty).mistake_probability = 0) :
    ∃ i, i < (get_legal_moves game_state).length ∧
      (get_move get_legal_moves evaluate models game_state difficulty tape
        start_time end_time).moves = (get_legal_moves game_state).getD i [] ∧
      (get_move get_legal_moves evaluate models game_state difficulty tape
        start_time end_time).evaluation =
        _evaluate_with_search evaluate
          (_apply_moves game_state ((get_legal_moves game_state).getD i []))
          (models difficulty) (difficulty_params difficulty).search_depth ∧
      (∀ j, j < (get_legal_moves game_state).length →
        _evaluate_with_search evaluate
          (_apply_moves game_state ((get_legal_moves game_state).getD j []))
          (models difficulty) (difficulty_params difficulty).search_depth ≤
          _evaluate_with_search evaluate
            (_apply_moves game_state ((get_legal_moves game_state).getD i []))
            (models difficulty) (difficulty_params difficulty).search_depth) ∧
      (∀ j, j < i →
        _evaluate_with_search evaluate
          (_apply_moves game_state ((get_legal_moves game_state).getD j []))
          (models difficulty) (difficulty_params difficulty).search_depth <
          _evaluate_with_search evaluate
            (_apply_moves game_state ((get_legal_moves game_state).getD i []))
            (models difficulty) (difficulty_params difficulty).search_depth) := by
  have hnm : ¬ tape.mistake < (difficulty_params difficulty).mistake_probability := by
    rw [hmp]
    exact not_lt.mpr tape.mistake_nonneg
  have hsc : ∀ (k : Nat) (mv : List Move),
      scoreOf evaluate (models difficulty) (difficulty_params difficulty)
        game_state tape k mv =
      _evaluate_with_search evaluate (_apply_moves game_state mv)
        (models difficulty) (difficulty_params difficulty).search_depth := by
    intro k mv
    simp [scoreOf, hnf]
  cases hG : get_legal_moves game_state with
  | nil => exact absurd hG hne
  | cons m rest =>
      obtain ⟨i, hi, hselEq, hmax, hfirst⟩ :=
        selection_no_mistake_spec evaluate (models difficulty)
          (difficulty_params difficulty) game_state tape m rest hnm
      refine ⟨i, by simp only [List.length_cons]; omega, ?_, ?_, ?_, ?_⟩
      · simp only [get_move, hG, hselEq]
      · simp only [get_move, hG, hselEq]
        exact hsc i _
      · intro j hj
        simp only [List.length_cons] at hj
        have h := hmax j hj
        rw [hsc j, hsc i] at h
        exact h
      · intro j hj
        have h := hfirst j hj
        rw [hsc j, hsc i] at h
        exact h

/-- Witness for the C8 theorem: two candidates on the hard profile; both
have equal base scores, so the first-enumerated one is selected. -/
theorem hard_profile_selects_first_strict_max_witness :
    ∃ i, i < (glmTwo gsExample).length ∧
      (get_move glmTwo evalZero modelsUnit gsExample DifficultyLevel.hard
        tapeHalf 0 0).moves = (glmTwo gsExample).getD i [] ∧
      (get_move glmTwo evalZero modelsUnit gsExample DifficultyLevel.hard
        tapeHalf 0 0).evaluation =
        _evaluate_with_search evalZero
          (_apply_moves gsExample ((glmTwo gsExample).getD i []))
          (modelsUnit DifficultyLevel.hard)
          (difficulty_params DifficultyLevel.hard).search_depth ∧
      (∀ j, j < (glmTwo gsExample).length →
        _evaluate_with_search evalZero
          (_apply_moves gsExample ((glmTwo gsExample).getD j []))
          (modelsUnit DifficultyLevel.hard)
          (difficulty_params DifficultyLevel.hard).search_depth ≤
          _evaluate_with_search evalZero
            (_apply_moves gsExample ((glmTwo gsExample).getD i []))
            (modelsUnit DifficultyLevel.hard)
            (difficulty_params DifficultyLevel.hard).search_depth) ∧
      (∀ j, j < i →
        _evaluate_with_search evalZero
          (_apply_moves gsExample ((glmTwo gsExample).getD j []))
          (modelsUnit DifficultyLevel.hard)
          (difficulty_params DifficultyLevel.hard).search_depth <
          _evaluate_with_search evalZero
            (_apply_moves gsExample ((glmTwo gsExample).getD i []))
            (modelsUnit DifficultyLevel.hard)
            (difficulty_params DifficultyLevel.hard).search_depth) :=
  hard_profile_selects_first_strict_max glmTwo evalZero modelsUnit gsExample
    DifficultyLevel.hard tapeHalf 0 0 (by decide) rfl rfl

/-! ### Claim C3 -/

/-- Claim C3, counterexample: on the easy profile (`noise_factor` 3/10 > 0)
with one candidate, base evaluation 0 and Gaussian draw 1, the mistake draw
1/2 does not fire (1/2 ≥ 15/100), yet the reported evaluation is the noisy
selection score 1 and not the noise-free base score of the chosen
candidate, refuting the claim at this concrete input. -/
theorem evaluation_field_is_noisy_at_instance :
    ¬ tapeNoise.mistake < (difficulty_params DifficultyLevel.easy).mistake_probability ∧
    (get_move glmOne evalZero modelsUnit gsExample DifficultyLevel.easy
      tapeNoise 0 0).moves = [⟨6, 3⟩] ∧
    (get_move glmOne evalZero modelsUnit gsExample DifficultyLevel.easy
      tapeNoise 0 0).evaluation ≠
      _evaluate_with_search evalZero (_apply_moves gsExample [⟨6, 3⟩]) ()
        (difficulty_params DifficultyLevel.easy).search_depth := by
  refine ⟨by norm_num [tapeNoise, difficulty_params], ?_, ?_⟩
  · norm_num [get_move, glmOne, selection, scoreList, scoreOf, selectBest,
      tapeNoise, difficulty_params, _evaluate_with_search, _apply_moves, evalZero]
  · norm_num [get_move, glmOne, selection, scoreList, scoreOf, selectBest,
      tapeNoise, difficulty_params, _evaluate_with_search, _apply_moves, evalZero]

/-- Claim C3, amended: when the mistake branch is not taken and candidates
exist, the `evaluation` field equals the perturbed selection score of the
finally chosen candidate — its base score plus that candidate's own
Gaussian draw when `noise_factor > 0` — i.e. exactly the noisy score used
for selection; it coincides with the noise-free base score only when no
noise is added. -/
theorem evaluation_field_equals_selection_score {Model : Type}
    (get_legal_moves : GameState → List (List Move))
    (evaluate : GameState → Model → ℚ) (models : DifficultyLevel → Model)
    (game_state : GameState) (difficulty : DifficultyLevel)
    (tape : RandTape) (start_time end_time : ℚ)
    (hne : get_legal_moves game_state ≠ [])
    (hnm : ¬ tape.mistake < (difficulty_params difficulty).mistake_probability) :
    ∃ i, i < (get_legal_moves game_state).length ∧
      (get_move get_legal_moves evaluate models game_state difficulty tape
        start_time end_time).moves = (get_legal_moves game_state).getD i [] ∧
      (get_move get_legal_moves evaluate models game_state difficulty tape
        start_time end_time).evaluation =
        scoreOf evaluate (models difficulty) (difficulty_params difficulty)
          game_state tape i ((get_legal_moves game_state).getD i []) := by
  cases hG : get_legal_moves game_state with
  | nil => exact absurd hG hne
  | cons m rest =>
      obtain ⟨i, hi, hselEq, hmax, hfirst⟩ :=
        selection_no_mistake_spec evaluate (models difficulty)
          (difficulty_params difficulty) game_state tape m rest hnm
      refine ⟨i, by simp only [List.length_cons]; omega, ?_, ?_⟩
      · simp only [get_move, hG, hselEq]
      · simp only [get_move, hG, hselEq]

/-- Witness for the amended C3 theorem on the easy profile with a mistake
draw of 1/2 (not firing). -/
theorem evaluation_field_equals_selection_score_witness :
    ∃ i, i < (glmTwo gsExample).length ∧
      (get_move glmTwo evalZero modelsUnit gsExample DifficultyLevel.easy
        tapeHalf 0 0).moves = (glmTwo gsExample).getD i [] ∧
      (get_move glmTwo evalZero modelsUnit gsExample DifficultyLevel.easy
        tapeHalf 0 0).evaluation =
        scoreOf evalZero (modelsUnit DifficultyLevel.easy)
          (difficulty_params DifficultyLevel.easy) gsExample tapeHalf i
          ((glmTwo gsExample).getD i []) :=
  evaluation_field_equals_selection_score glmTwo evalZero modelsUnit gsExample
    DifficultyLevel.easy tapeHalf 0 0 (by decide)
    (by norm_num [tapeHalf, difficulty_params])

/-! ### Claim C6 -/

/-- Claim C6: when the mistake draw fires (`random.random() <
params["mistake_probability"]`), the maximizing selection is discarded, the
returned sequence is the candidate at the drawn index (`random.choice`
picks uniformly among all candidates; it is modelled by the tape's `choice`
index reduced modulo the candidate count, so every candidate is the
outcome of some draw), and the reported evaluation is the noise-free
evaluator score of that candidate's resulting position. -/
theorem mistake_branch_uniform_choice_and_base_eval {Model : Type}
    (get_legal_moves : GameState → List (List Move))
    (evaluate : GameState → Model → ℚ) (models : DifficultyLevel → Model)
    (game_state : GameState) (difficulty : DifficultyLevel)
    (tape : RandTape) (start_time end_time : ℚ)
    (hne : get_legal_moves game_state ≠ [])
    (hm : tape.mistake < (difficulty_params difficulty).mistake_probability) :
    (get_move get_legal_moves evaluate models game_state difficulty tape
      start_time end_time).moves =
      (get_legal_moves game_state).getD
        (tape.choice % (get_legal_moves game_state).length) [] ∧
    (get_move get_legal_moves evaluate models game_state difficulty tape
      start_time end_time).evaluation =
      evaluate (_apply_moves game_state
        ((get_legal_moves game_state).getD
          (tape.choice % (get_legal_moves game_state).length) []))
        (models difficulty) := by
  cases hG : get_legal_moves game_state with
  | nil => exact absurd hG hne
  | cons m rest =>
      constructor <;> simp [get_move, hG, selection, hm]

/-- Witness for the C6 theorem: easy profile, mistake draw 1/10 < 15/100,
choice index 1 among two candidates. -/
theorem mistake_branch_uniform_choice_and_base_eval_witness :
    (get_move glmTwo evalZero modelsUnit gsExample DifficultyLevel.easy
      tapeMistake 0 0).moves =
      (glmTwo gsExample).getD
        (tapeMistake.choice % (glmTwo gsExample).length) [] ∧
    (get_move glmTwo evalZero modelsUnit gsExample DifficultyLevel.easy
      tapeMistake 0 0).evaluation =
      evalZero (_apply_moves gsExample
        ((glmTwo gsExample).getD
          (tapeMistake.choice % (glmTwo gsExample).length) []))
        (modelsUnit DifficultyLevel.easy) :=
  mistake_branch_uniform_choice_and_base_eval glmTwo evalZero modelsUnit
    gsExample DifficultyLevel.easy tapeMistake 0 0 (by decide)
    (by norm_num [tapeMistake, difficulty_params])

/-! ### Claim C7 -/

/-- Claim C7: on a valid state whose candidate set is empty, the endpoint
returns `ok` (no error) with an empty move sequence and evaluation exactly
0. -/
theorem empty_candidates_returns_empty_zero {Model : Type}
    (get_legal_moves : GameState → List (List Move))
    (evaluate : GameState → Model → ℚ) (models : DifficultyLevel → Model)
    (game_state : GameState) (difficulty : DifficultyLevel)
    (tape : RandTape) (start_time end_time : ℚ)
    (hvalid : is_valid_state game_state = true)
    (hempty : get_legal_moves game_state = []) :
    get_bot_move get_legal_moves evaluate models game_state difficulty tape
      start_time end_time =
      Except.ok
        { moves := [], evaluation := 0,
          thinking_time_ms := pyIntTrunc ((end_time - start_time) * 1000),
          cube_action := none } := by
  simp [get_bot_move, hvalid, get_move, hempty]

/-- Witness for the C7 theorem on the example state with an empty candidate
set. -/
theorem empty_candidates_returns_empty_zero_witness :
    is_valid_state gsExample = true ∧
    glmEmpty gsExample = [] ∧
    get_bot_move glmEmpty evalZero modelsUnit gsExample DifficultyLevel.medium
      tapeHalf 0 0 =
      Except.ok
        { moves := [], evaluation := 0,
          thinking_time_ms := pyIntTrunc ((0 - 0) * 1000),
          cube_action := none } :=
  ⟨by decide, rfl,
    empty_candidates_returns_empty_zero glmEmpty evalZero modelsUnit gsExample
      DifficultyLevel.medium tapeHalf 0 0 (by decide) rfl⟩

/-! ### Claim C2 -/

/-- Claim C2, counterexample: with everything fixed — state, dice,
difficulty and the realized draws of the global `random` module — two calls
whose `time.time()` readings differ return different responses (their
`thinking_time_ms` fields are 0 and 1000), so repeated calls with an
identically seeded random source are not byte-identical; and the source's
`get_move` has no injected random source at all. -/
theorem get_move_differs_across_clock :
    get_move glmOne evalZero modelsUnit gsExample DifficultyLevel.hard
      tapeHalf 0 0 ≠
    get_move glmOne evalZero modelsUnit gsExample DifficultyLevel.hard
      tapeHalf 0 1 := by
  intro h
  have h2 := congrArg BotResponse.thinking_time_ms h
  have e0 : (get_move glmOne evalZero modelsUnit gsExample DifficultyLevel.hard
      tapeHalf 0 0).thinking_time_ms = pyIntTrunc ((0 - 0) * 1000) := by
    simp only [get_move, glmOne]
  have e1 : (get_move glmOne evalZero modelsUnit gsExample DifficultyLevel.hard
      tapeHalf 0 1).thinking_time_ms = pyIntTrunc ((1 - 0) * 1000) := by
    simp only [get_move, glmOne]
  rw [e0, e1] at h2
  have hv : pyIntTrunc ((0 - 0) * 1000) = 0 := by
    norm_num [pyIntTrunc]
  have hw : pyIntTrunc ((1 - 0) * 1000) = 1000 := by
    norm_num [pyIntTrunc]
  rw [hv, hw] at h2
  exact absurd h2 (by norm_num)

/-- Claim C2, amended: the `moves`, `evaluation` and `cube_action` fields
of the response are identical across calls with the same state, dice,
difficulty and the same realized draws of the process-global `random`
module (modelled by the tape), whatever the wall-clock readings of each
call; only `thinking_time_ms` depends on the clock, so the full response is
byte-identical only when the clock readings also coincide.  The randomness
is drawn from the global `random` module — the source's `get_move` takes no
injectable random source. -/
theorem get_move_choice_independent_of_clock {Model : Type}
    (get_legal_moves : GameState → List (List Move))
    (evaluate : GameState → Model → ℚ) (models : DifficultyLevel → Model)
    (game_state : GameState) (difficulty : DifficultyLevel) (tape : RandTape)
    (t0 t1 u0 u1 : ℚ) :
    (get_move get_legal_moves evaluate models game_state difficulty tape
      t0 t1).moves =
      (get_move get_legal_moves evaluate models game_state difficulty tape
        u0 u1).moves ∧
    (get_move get_legal_moves evaluate models game_state difficulty tape
      t0 t1).evaluation =
      (get_move get_legal_moves evaluate models game_state difficulty tape
        u0 u1).evaluation ∧
    (get_move get_legal_moves evaluate models game_state difficulty tape
      t0 t1).cube_action =
      (get_move get_legal_moves evaluate models game_state difficulty tape
        u0 u1).cube_action := by
  cases hG : get_legal_moves game_state <;> simp [get_move, hG]

/-! ### Claim C5 -/

/-- Claim C5, counterexample: a request with die 7 (outside `[1,6]`) and a
request with valid dice but a corrupted checker count produce the very same
generic error — `HTTPException(500, "Error generating move: 400: Invalid
game state")`, the 400 having been swallowed by the blanket `except
Exception` clause — so the failure on invalid dice is not a dice-specific
`InvalidDiceError` (no such error exists anywhere in the code). -/
theorem invalid_dice_error_not_dice_specific :
    get_bot_move glmOne evalZero modelsUnit gsBadDice DifficultyLevel.medium
      tapeHalf 0 0 =
      get_bot_move glmOne evalZero modelsUnit gsBadBoard DifficultyLevel.medium
        tapeHalf 0 0 ∧
    get_bot_move glmOne evalZero modelsUnit gsBadDice DifficultyLevel.medium
      tapeHalf 0 0 =
      Except.error (ApiError.httpException 500
        "Error generating move: 400: Invalid game state") := by
  have h1 : is_valid_state gsBadDice = false := by decide
  have h2 : is_valid_state gsBadBoard = false := by decide
  refine ⟨?_, ?_⟩
  · simp [get_bot_move, h1, h2]
  · simp only [get_bot_move, h1, Bool.false_eq_true, if_false]
    rfl

/-- Claim C5, amended: a request whose dice list contains a value outside
`[1,6]` fails before any move generation or evaluation occurs — the result
is a fixed error term independent of the move generator and the evaluator —
but the error is the generic invalid-game-state HTTP error (a 400 converted
to 500 by the blanket exception handler), not a dice-specific
`InvalidDiceError`. -/
theorem invalid_dice_generic_500 {Model : Type}
    (get_legal_moves : GameState → List (List Move))
    (evaluate : GameState → Model → ℚ) (models : DifficultyLevel → Model)
    (game_state : GameState) (difficulty : DifficultyLevel)
    (tape : RandTape) (start_time end_time : ℚ)
    (hbad : ∃ v ∈ game_state.dice, v < 1 ∨ 6 < v) :
    get_bot_move get_legal_moves evaluate models game_state difficulty tape
      start_time end_time =
      Except.error (ApiError.httpException 500
        "Error generating move: 400: Invalid game state") := by
  have hdie : (game_state.dice.all
      (fun d => decide (1 ≤ d) && decide (d ≤ 6))) = false := by
    obtain ⟨v, hv, hout⟩ := hbad
    refine List.all_eq_false.mpr ⟨v, hv, ?_⟩
    simp only [Bool.and_eq_true, decide_eq_true_eq, not_and]
    intro h1
    omega
  have hfalse : is_valid_state game_state = false := by
    simp [is_valid_state, hdie]
  simp only [get_bot_move, hfalse, Bool.false_eq_true, if_false]
  rfl

/-- Witness for the amended C5 theorem on the example request with dice
`[7, 3]`. -/
theorem invalid_dice_generic_500_witness :
    (∃ v ∈ gsBadDice.dice, v < 1 ∨ 6 < v) ∧
    get_bot_move glmTwo evalZero modelsUnit gsBadDice DifficultyLevel.easy
      tapeHalf 0 0 =
      Except.error (ApiError.httpException 500
        "Error generating move: 400: Invalid game state") :=
  ⟨⟨7, by decide, by decide⟩,
    invalid_dice_generic_500 glmTwo evalZero modelsUnit gsBadDice
      DifficultyLevel.easy tapeHalf 0 0 ⟨7, by decide, by decide⟩⟩
